import Mathlib

/-!
Verification of the beads agent orchestrator (scripts/orchestrate.py).

The Python source is shallowly embedded: pure helpers become Lean
functions, and the effectful parts (task-store queries, status
mutations, the agent subprocess) are modelled by explicit oracles
(`Store`, `ProcOutcome`) together with a trace of issued mutations
(`Effect`).  Every definition mirrors the corresponding Python
function; the theorems at the end settle the specification claims.
-/

/-- Mirrors the `BeadTask` dataclass of orchestrate.py. -/
structure BeadTask where
  id : String
  title : String
  description : String
  labels : List String
  acceptance : String
  status : String
  task_type : String
  parent_id : Option String
deriving Repr, DecidableEq

/-- Lexicographic comparison of char lists by code point; this is the
order Python uses when comparing strings (e.g. inside a sort key). -/
def charListLE : List Char → List Char → Bool
  | [], _ => true
  | _ :: _, [] => false
  | a :: as, b :: bs =>
    if a.toNat < b.toNat then true
    else if b.toNat < a.toNat then false
    else charListLE as bs

/-- Python string comparison `a <= b` (code-point lexicographic). -/
def strLE (a b : String) : Bool := charListLE a.data b.data

/-- The chars after the first dash of a list, or `none` when there is
no dash.  Mirrors `task_id.split("-", 1)[1]` guarded by
`"-" in task_id`. -/
def afterFirstDash : List Char → Option (List Char)
  | [] => none
  | c :: cs => if c = '-' then some cs else afterFirstDash cs

/-- Mirrors `get_hierarchy_depth` (orchestrate.py lines 233-248):
if the id contains a dash, count the dots after the first dash,
otherwise return 0. -/
def get_hierarchy_depth (task : BeadTask) : Nat :=
  match afterFirstDash task.id.data with
  | some rest => rest.countP (fun c => c = '.')
  | none => 0

/-- Mirrors `is_leaf_task` (lines 251-265): epics are never leaves;
otherwise a task is a leaf iff its depth is at least 2. -/
def is_leaf_task (task : BeadTask) : Bool :=
  if task.task_type = "epic" then false
  else decide (2 ≤ get_hierarchy_depth task)

/-- JSON values, used to model the parsed output of the `bd` CLI. -/
inductive Json where
  | null
  | bool (b : Bool)
  | num (n : Int)
  | str (s : String)
  | arr (items : List Json)
  | obj (fields : List (String × Json))

/-- Field lookup in a JSON object (`dict.get` without default). -/
def Json.getField (j : Json) (key : String) : Option Json :=
  match j with
  | .obj fields => (fields.find? (fun p => p.1 == key)).map (fun p => p.2)
  | _ => none

/-- The string carried by a JSON value, or a default. -/
def Json.asStrD : Json → String → String
  | .str s, _ => s
  | _, d => d

/-- Mirrors `item.get(key, dflt)` for string-valued fields. -/
def Json.getStr (j : Json) (key : String) (dflt : String) : String :=
  match j.getField key with
  | some v => v.asStrD dflt
  | none => dflt

/-- Mirrors `item.get("labels", [])` for a string-array field. -/
def Json.getStrArr (j : Json) (key : String) : List String :=
  match j.getField key with
  | some (.arr items) =>
    items.filterMap (fun it =>
      match it with
      | .str s => some s
      | _ => none)
  | _ => []

/-- Mirrors `item.get(key)` for an optional string field. -/
def Json.getStrOpt (j : Json) (key : String) : Option String :=
  match j.getField key with
  | some (.str s) => some s
  | _ => none

/-- Mirrors `item.get("issue_type", item.get("type", "task"))`. -/
def taskTypeOfItem (item : Json) : String :=
  match item.getField "issue_type" with
  | some v => v.asStrD "task"
  | none =>
    match item.getField "type" with
    | some v => v.asStrD "task"
    | none => "task"

/-- Building a `BeadTask` from one parsed JSON item, as done in
`get_child_tasks` (lines 292-303). -/
def taskOfItem (item : Json) : BeadTask :=
  { id := item.getStr "id" ""
    title := item.getStr "title" ""
    description := item.getStr "description" ""
    labels := item.getStrArr "labels"
    acceptance := item.getStr "acceptance" ""
    status := item.getStr "status" ""
    task_type := taskTypeOfItem item
    parent_id := item.getStrOpt "parent" }

/-- Result of one `subprocess.run` of the `bd` CLI. -/
structure CmdResult where
  returncode : Int
  stdout : String
deriving Repr, DecidableEq

/-- Mirrors `get_child_tasks` (lines 268-308).  `result` is the store
command's outcome and `decode` models `json.loads` (`none` stands for
a `JSONDecodeError`).  A non-zero exit code, blank output, or a decode
failure all yield the empty list. -/
def get_child_tasks (result : CmdResult) (decode : String → Option Json) :
    List BeadTask :=
  if result.returncode ≠ 0 then []
  else if result.stdout.data.all (fun c => c.isWhitespace) then []
  else
    match decode result.stdout with
    | none => []
    | some data =>
      let items := match data with
        | .arr xs => xs
        | j => [j]
      items.map taskOfItem

/-- Mirrors `all_children_complete` (lines 311-329), abstracted over
the child-fetching function: `true` when there are no children or
every child has status done or closed. -/
def all_children_complete (fetch : String → List BeadTask)
    (parent_id : String) : Bool :=
  let children := fetch parent_id
  if children.isEmpty then true
  else children.all (fun child =>
    decide (child.status = "done") || decide (child.status = "closed"))

/-- Sort key comparison of `get_next_prioritized_task`: Python's
tuple comparison on `(-get_hierarchy_depth t, t.id)`, i.e. deeper
tasks come first and equal depths are ordered by id. -/
def keyLE (a b : BeadTask) : Bool :=
  decide (get_hierarchy_depth b < get_hierarchy_depth a) ||
    (decide (get_hierarchy_depth a = get_hierarchy_depth b) && strLE a.id b.id)

/-- Mirrors `tasks.sort(key=lambda t: (-get_hierarchy_depth(t), t.id))`:
a stable sort by the depth-then-id key. -/
def sortTasks (ts : List BeadTask) : List BeadTask := ts.mergeSort keyLE

/-- Oracle for the task store: the fetched ready and in-progress
candidate lists, the per-parent child lists, the per-id detail lookup,
and whether each mutating command succeeds. -/
structure Store where
  ready : List BeadTask
  inProgress : List BeadTask
  children : String → List BeadTask
  details : String → Option BeadTask
  claimOk : String → Bool
  completeOk : String → Bool
  failOk : String → Bool

/-- The resume-mode walk over the sorted in-progress list
(orchestrate.py lines 360-370): return the first leaf, or the first
non-leaf whose children are all complete; skip other non-leaves. -/
def pickInProgress (gate : String → Bool) : List BeadTask → Option BeadTask
  | [] => none
  | t :: rest =>
    if is_leaf_task t then some t
    else if gate t.id then some t
    else pickInProgress gate rest

/-- The in-progress candidate selected in resume mode, if any
(orchestrate.py lines 352-370); `none` when resume mode is off, no
in-progress task was fetched, or every candidate was skipped. -/
def resume_candidate (store : Store) (resume : Bool) : Option BeadTask :=
  if resume then
    if store.inProgress.isEmpty then none
    else
      pickInProgress (fun pid => all_children_complete store.children pid)
        (sortTasks store.inProgress)
  else none

/-- Mirrors `get_next_prioritized_task` (lines 332-381): in resume
mode try the in-progress walk first (resumed flag true); otherwise
sort the ready list by the same key and take its head (resumed flag
false); no candidate at all yields `(none, false)`. -/
def get_next_prioritized_task (store : Store) (resume : Bool) :
    Option BeadTask × Bool :=
  match resume_candidate store resume with
  | some t => (some t, true)
  | none =>
    match sortTasks store.ready with
    | [] => (none, false)
    | t :: _ => (some t, false)

/-- A mutation issued to the task store, or the launch of the agent
subprocess.  Read-only queries are not recorded. -/
inductive Effect where
  | claim (id : String)
  | setStatus (id : String) (status : String) (note : Option String)
      (session : Option String)
  | note (id : String) (text : String)
  | launch (id : String)
deriving Repr, DecidableEq

/-- Outcome of the agent subprocess call inside `run_agent`: normal
completion with an exit code and parsed session id, a
`TimeoutExpired`, or some other exception. -/
inductive ProcOutcome where
  | completed (returncode : Int) (session : Option String)
  | timedOut
  | excepted
deriving Repr, DecidableEq

/-- Mirrors `run_agent` (lines 511-622), returning the Python result
triple `(success, session_id, timed_out)` together with the trace of
effects (the subprocess launch, absent in dry-run mode). -/
def run_agent (dryRun : Bool) (taskId : String) (proc : ProcOutcome) :
    (Bool × Option String × Bool) × List Effect :=
  if dryRun then ((true, none, false), [])
  else
    match proc with
    | .completed rc session =>
      if rc ≠ 0 then ((false, none, false), [Effect.launch taskId])
      else ((true, session, false), [Effect.launch taskId])
    | .timedOut => ((false, none, true), [Effect.launch taskId])
    | .excepted => ((false, none, false), [Effect.launch taskId])

/-- The mutation issued by `complete_task` (lines 423-437). -/
def completeEffect (taskId : String) (session : Option String) : Effect :=
  Effect.setStatus taskId "closed" none session

/-- The mutation issued by `fail_task` (lines 440-453). -/
def failEffect (taskId : String) (reason : String) : Effect :=
  Effect.setStatus taskId "blocked" (some ("Agent failed: " ++ reason)) none

/-- The note text appended after a timeout (lines 760-763). -/
def timeoutNote (timeoutSeconds : Nat) : String :=
  "Agent timed out after " ++ toString (timeoutSeconds / 60) ++
    " minutes. Check progress notes for partial work."

/-- Mirrors the status-update block after `run_agent` returns
(orchestrate.py lines 751-767): on success with auto-complete, close
(and mark blocked if the close fails); on timeout, only append a
note; on any other failure, mark blocked. -/
def update_after_run (store : Store) (timeoutSeconds : Nat) (taskId : String)
    (dryRun autoComplete success : Bool) (session : Option String)
    (timedOut : Bool) : List Effect :=
  if dryRun then []
  else if success && autoComplete then
    if store.completeOk taskId then [completeEffect taskId session]
    else [completeEffect taskId session,
      failEffect taskId "Failed to mark task as done after successful agent run"]
  else if timedOut then [Effect.note taskId (timeoutNote timeoutSeconds)]
  else if !success then [failEffect taskId "Agent execution failed"]
  else []

/-- Mirrors the non-leaf branch of the orchestration loop
(orchestrate.py lines 708-727): claim unless resumed (a failed claim
skips the task), then close when auto-complete is on, falling back to
blocked when the close fails. -/
def close_nonleaf (store : Store) (dryRun autoComplete isResumed : Bool)
    (taskId : String) : List Effect :=
  if dryRun then []
  else if !isResumed && !store.claimOk taskId then [Effect.claim taskId]
  else
    (if isResumed then [] else [Effect.claim taskId]) ++
      (if autoComplete then
        if store.completeOk taskId then [completeEffect taskId none]
        else [completeEffect taskId none,
          failEffect taskId "Failed to mark task as done"]
      else [])

/-- Configuration of `orchestrate` (its keyword arguments). -/
structure Config where
  maxIterations : Option Nat
  dryRun : Bool
  autoComplete : Bool
  resume : Bool
  timeoutSeconds : Nat

/-- One iteration of the `while True` body of `orchestrate`
(lines 679-769): select a task, refresh its details, then either run
the non-leaf auto-close branch or the leaf claim/execute/update
branch.  Returns the issued effects and whether the loop continues
(`false` exactly when no task was found). -/
def orchestrate_step (cfg : Config) (store : Store) (proc : ProcOutcome) :
    List Effect × Bool :=
  match get_next_prioritized_task store cfg.resume with
  | (none, _) => ([], false)
  | (some task0, isResumed) =>
    let task := (store.details task0.id).getD task0
    if !is_leaf_task task then
      (close_nonleaf store cfg.dryRun cfg.autoComplete isResumed task.id, true)
    else if !cfg.dryRun && !isResumed && !store.claimOk task.id then
      ([Effect.claim task.id], true)
    else
      let claimEffs :=
        if !cfg.dryRun && !isResumed then [Effect.claim task.id] else []
      let r := run_agent cfg.dryRun task.id proc
      (claimEffs ++ r.2 ++
        update_after_run store cfg.timeoutSeconds task.id cfg.dryRun
          cfg.autoComplete r.1.1 r.1.2.1 r.1.2.2, true)

/-- The orchestration loop, fuelled: `env i` and `procs i` give the
store snapshot and agent outcome observed at iteration `i`, and the
loop stops on the iteration cap or when no task is found.  The result
is the concatenated trace of issued effects. -/
def orchestrate_loop (cfg : Config) (env : Nat → Store)
    (procs : Nat → ProcOutcome) : Nat → Nat → List Effect
  | 0, _ => []
  | fuel + 1, iteration =>
    let stop := match cfg.maxIterations with
      | some m => decide (m ≤ iteration)
      | none => false
    if stop then []
    else
      let r := orchestrate_step cfg (env iteration) (procs iteration)
      if r.2 then r.1 ++ orchestrate_loop cfg env procs fuel (iteration + 1)
      else r.1

/-- A bead task with the given id and neutral remaining fields, used
for concrete instances. -/
def mkTask (id : String) : BeadTask :=
  { id := id, title := "", description := "", labels := [],
    acceptance := "", status := "ready", task_type := "task",
    parent_id := none }

/-- Store where every mutation succeeds and no tasks exist. -/
def okStore : Store :=
  { ready := [], inProgress := [], children := fun _ => [],
    details := fun _ => none, claimOk := fun _ => true,
    completeOk := fun _ => true, failOk := fun _ => true }

/-- Store whose completing mutation always fails. -/
def failCloseStore : Store :=
  { okStore with completeOk := fun _ => false }

/-- Ready pool with depths 0, 2, 1, 2 (ids break the depth-2 tie). -/
def w3store : Store :=
  { okStore with
    ready := [mkTask "fb-a", mkTask "fb-a.1.2", mkTask "fb-a.1", mkTask "fb-a.1.1"] }

/-- Store with one ready leaf task. -/
def wLeafStore : Store :=
  { okStore with ready := [mkTask "fb-a.1.1"] }

/-- Non-leaf depth-1 task whose direct child is still ready. -/
def c1parent : BeadTask :=
  { id := "fb-a.1", title := "Parent", description := "", labels := [],
    acceptance := "", status := "ready", task_type := "task",
    parent_id := some "fb-a" }

/-- The unfinished direct child of `c1parent`: blocked (say after a
failed agent run), hence neither done nor closed, and legitimately
absent from the ready list. -/
def c1child : BeadTask :=
  { id := "fb-a.1.1", title := "Child", description := "", labels := [],
    acceptance := "", status := "blocked", task_type := "task",
    parent_id := some "fb-a.1" }

/-- Store whose ready list holds only `c1parent` while `c1parent`
still has the unfinished child `c1child`. -/
def c1store : Store :=
  { okStore with
    ready := [c1parent],
    children := fun pid => if pid = "fb-a.1" then [c1child] else [] }

/-- Plain non-resume, non-dry configuration with auto-complete on. -/
def liveCfg : Config :=
  { maxIterations := none, dryRun := false, autoComplete := true,
    resume := false, timeoutSeconds := 1800 }

/-- Dry-run configuration. -/
def dryCfg : Config :=
  { liveCfg with dryRun := true }

/-- Code-point comparison of char lists is reflexive. -/
theorem charListLE_refl : ∀ cs : List Char, charListLE cs cs = true
  | [] => rfl
  | c :: cs => by simp [charListLE, charListLE_refl cs]

/-- Code-point comparison of char lists is total. -/
theorem charListLE_total :
    ∀ as bs : List Char, (charListLE as bs || charListLE bs as) = true
  | [], _ => by simp [charListLE]
  | _ :: _, [] => by simp [charListLE]
  | a :: as, b :: bs => by
    by_cases hab : a.toNat < b.toNat
    · simp [charListLE, hab]
    · by_cases hba : b.toNat < a.toNat
      · simp [charListLE, hab, hba]
      · simp [charListLE, hab, hba, charListLE_total as bs]

/-- Code-point comparison of char lists is transitive. -/
theorem charListLE_trans :
    ∀ as bs cs : List Char, charListLE as bs = true →
      charListLE bs cs = true → charListLE as cs = true
  | [], _, _, _, _ => rfl
  | _ :: _, [], _, h1, _ => by simp [charListLE] at h1
  | _ :: _, _ :: _, [], _, h2 => by simp [charListLE] at h2
  | a :: as, b :: bs, c :: cs, h1, h2 => by
    simp only [charListLE] at h1 h2 ⊢
    by_cases hab : a.toNat < b.toNat
    · by_cases hbc : b.toNat < c.toNat
      · have hac : a.toNat < c.toNat := Nat.lt_trans hab hbc
        simp [hac]
      · by_cases hcb : c.toNat < b.toNat
        · simp [hbc, hcb] at h2
        · have hbceq : b.toNat = c.toNat := by omega
          have hac : a.toNat < c.toNat := by omega
          simp [hac]
    · by_cases hba : b.toNat < a.toNat
      · simp [hab, hba] at h1
      · have habeq : a.toNat = b.toNat := by omega
        simp [hab, hba] at h1
        by_cases hbc : b.toNat < c.toNat
        · have hac : a.toNat < c.toNat := by omega
          simp [hac]
        · by_cases hcb : c.toNat < b.toNat
          · simp [hbc, hcb] at h2
          · simp [hbc, hcb] at h2
            have hac : ¬ a.toNat < c.toNat := by omega
            have hca : ¬ c.toNat < a.toNat := by omega
            simp [hac, hca, charListLE_trans as bs cs h1 h2]

/-- The string order used by the sort key is reflexive. -/
theorem strLE_refl (a : String) : strLE a a = true := charListLE_refl a.data

/-- The string order used by the sort key is total. -/
theorem strLE_total (a b : String) : (strLE a b || strLE b a) = true :=
  charListLE_total a.data b.data

/-- The string order used by the sort key is transitive. -/
theorem strLE_trans (a b c : String) (h1 : strLE a b = true)
    (h2 : strLE b c = true) : strLE a c = true :=
  charListLE_trans a.data b.data c.data h1 h2

/-- The scheduler's sort key comparison is reflexive. -/
theorem keyLE_refl (a : BeadTask) : keyLE a a = true := by
  simp [keyLE, strLE_refl]

/-- The scheduler's sort key comparison is total. -/
theorem keyLE_total (a b : BeadTask) : (keyLE a b || keyLE b a) = true := by
  unfold keyLE
  rcases Nat.lt_trichotomy (get_hierarchy_depth a) (get_hierarchy_depth b)
    with h | h | h
  · simp [h]
  · cases hs : strLE a.id b.id
    · have ht := strLE_total a.id b.id
      simp only [hs, Bool.false_or] at ht
      simp [h, ht]
    · simp [h, hs]
  · simp [h]

/-- The scheduler's sort key comparison is transitive. -/
theorem keyLE_trans (a b c : BeadTask) (h1 : keyLE a b = true)
    (h2 : keyLE b c = true) : keyLE a c = true := by
  unfold keyLE at h1 h2 ⊢
  simp only [Bool.or_eq_true, Bool.and_eq_true, decide_eq_true_eq] at h1 h2 ⊢
  rcases h1 with h1 | ⟨h1e, h1s⟩ <;> rcases h2 with h2 | ⟨h2e, h2s⟩
  · exact Or.inl (by omega)
  · exact Or.inl (by omega)
  · exact Or.inl (by omega)
  · exact Or.inr ⟨by omega, strLE_trans _ _ _ h1s h2s⟩

/-- The scheduler's sort is ordered by the key comparison. -/
theorem sortTasks_sorted (ts : List BeadTask) :
    List.Pairwise (fun a b => keyLE a b = true) (sortTasks ts) :=
  List.sorted_mergeSort keyLE_trans keyLE_total ts

/-- The scheduler's sort permutes its input. -/
theorem sortTasks_perm (ts : List BeadTask) : (sortTasks ts).Perm ts :=
  List.mergeSort_perm ts keyLE

/-- Membership is preserved by the scheduler's sort. -/
theorem mem_sortTasks {t : BeadTask} {ts : List BeadTask} :
    t ∈ sortTasks ts ↔ t ∈ ts :=
  (sortTasks_perm ts).mem_iff

/-- The scheduler's sort of a non-empty list is non-empty. -/
theorem sortTasks_ne_nil {ts : List BeadTask} (h : ts ≠ []) :
    sortTasks ts ≠ [] := by
  intro hs
  apply h
  have hlen := (sortTasks_perm ts).length_eq
  rw [hs] at hlen
  exact List.length_eq_zero.mp hlen.symm

/-- The resume-mode walk selects exactly the first task that is a
leaf or passes the gate. -/
theorem pickInProgress_eq_find (gate : String → Bool) (l : List BeadTask) :
    pickInProgress gate l = l.find? (fun t => is_leaf_task t || gate t.id) := by
  induction l with
  | nil => rfl
  | cons t rest ih =>
    by_cases hleaf : is_leaf_task t
    · simp [pickInProgress, hleaf]
    · by_cases hg : gate t.id
      · simp [pickInProgress, hleaf, hg]
      · simp [pickInProgress, hleaf, hg, ih]

/-- Characterisation of the chars after the first dash by `dropWhile`. -/
theorem afterFirstDash_eq (cs : List Char) :
    afterFirstDash cs =
      if '-' ∈ cs then some ((cs.dropWhile (fun c => c ≠ '-')).tail)
      else none := by
  induction cs with
  | nil => simp [afterFirstDash]
  | cons c rest ih =>
    by_cases hc : c = '-'
    · subst hc
      simp [afterFirstDash, List.dropWhile]
    · have hcs : ¬ ('-' = c) := fun h => hc h.symm
      simp [afterFirstDash, hc, hcs, List.dropWhile, ih]

/-- C2: for every id containing a dash, `get_hierarchy_depth` is the
number of dot characters in the substring after the first dash, and
for ids without a dash it is 0; it is a total function, and in
particular fb-ft0, fb-ft0.1, fb-ft0.1.1 have depths 0, 1, 2. -/
theorem hierarchy_depth_counts_dots_after_first_dash :
    (∀ task : BeadTask,
      get_hierarchy_depth task =
        (if '-' ∈ task.id.data then
          ((task.id.data.dropWhile (fun c => c ≠ '-')).tail).countP
            (fun c => c = '.')
        else 0)) ∧
    get_hierarchy_depth (mkTask "fb-ft0") = 0 ∧
    get_hierarchy_depth (mkTask "fb-ft0.1") = 1 ∧
    get_hierarchy_depth (mkTask "fb-ft0.1.1") = 2 := by
  refine ⟨?_, by decide, by decide, by decide⟩
  intro task
  unfold get_hierarchy_depth
  rw [afterFirstDash_eq]
  by_cases h : '-' ∈ task.id.data <;> simp [h]

/-- C5: the dependency gate is true exactly when every fetched child
is done or closed (vacuously for an empty child set), and false as
soon as one child has any other status. -/
theorem children_gate_characterisation (fetch : String → List BeadTask)
    (pid : String) :
    (fetch pid = [] → all_children_complete fetch pid = true) ∧
    (all_children_complete fetch pid = true ↔
      ∀ c ∈ fetch pid, c.status = "done" ∨ c.status = "closed") ∧
    ((∃ c ∈ fetch pid, c.status ≠ "done" ∧ c.status ≠ "closed") →
      all_children_complete fetch pid = false) := by
  have hmain : all_children_complete fetch pid = true ↔
      ∀ c ∈ fetch pid, c.status = "done" ∨ c.status = "closed" := by
    unfold all_children_complete
    by_cases h : (fetch pid).isEmpty
    · have heq : fetch pid = [] := by
        cases hf : fetch pid with
        | nil => rfl
        | cons x xs => rw [hf] at h; simp [List.isEmpty] at h
      simp [h, heq]
    · simp [h, List.all_eq_true]
  refine ⟨?_, hmain, ?_⟩
  · intro h
    rw [hmain]
    intro c hc
    rw [h] at hc
    exact absurd hc (List.not_mem_nil c)
  · intro ⟨c, hc, h1, h2⟩
    cases hall : all_children_complete fetch pid
    · rfl
    · rcases hmain.mp hall c hc with h | h
      · exact absurd h h1
      · exact absurd h h2

/-- C5 witness: the gate at a parent with no children, and at a parent
with one still-ready child. -/
theorem children_gate_witness :
    all_children_complete (fun _ => []) "fb-a.1" = true ∧
    all_children_complete (fun _ => [mkTask "fb-a.1.1"]) "fb-a.1" = false :=
  ⟨(children_gate_characterisation (fun _ => []) "fb-a.1").1 rfl,
   (children_gate_characterisation (fun _ => [mkTask "fb-a.1.1"]) "fb-a.1").2.2
     ⟨mkTask "fb-a.1.1", by simp, by decide, by decide⟩⟩

/-- C6: a failed child-listing command (non-zero exit code, blank
output, or undecodable output) yields the empty child list, and an
empty child list makes the dependency gate vacuously true. -/
theorem failed_child_query_is_vacuous (res : CmdResult)
    (decode : String → Option Json) (pid : String) :
    (res.returncode ≠ 0 → get_child_tasks res decode = []) ∧
    (res.stdout.data.all (fun c => c.isWhitespace) = true →
      get_child_tasks res decode = []) ∧
    (decode res.stdout = none → get_child_tasks res decode = []) ∧
    (get_child_tasks res decode = [] →
      all_children_complete (fun _ => get_child_tasks res decode) pid = true) := by
  refine ⟨?_, ?_, ?_, ?_⟩
  · intro h
    simp [get_child_tasks, h]
  · intro h
    by_cases hr : res.returncode = 0 <;> simp [get_child_tasks, hr, h]
  · intro h
    by_cases hr : res.returncode = 0
    · by_cases hw : res.stdout.data.all (fun c => c.isWhitespace) <;>
        simp [get_child_tasks, hr, hw, h]
    · simp [get_child_tasks, hr]
  · intro h
    simp [all_children_complete, h]

/-- C6 witness: a store command that exited with code 1 and output
that does not decode produces no children and a vacuously true gate. -/
theorem failed_child_query_witness :
    get_child_tasks ⟨1, "oops"⟩ (fun _ => none) = [] ∧
    all_children_complete
      (fun _ => get_child_tasks ⟨1, "oops"⟩ (fun _ => none)) "fb-a.1" = true := by
  have h1 : get_child_tasks ⟨1, "oops"⟩ (fun _ => none) = [] :=
    (failed_child_query_is_vacuous ⟨1, "oops"⟩ (fun _ => none) "fb-a.1").1
      (by decide)
  exact ⟨h1,
    (failed_child_query_is_vacuous ⟨1, "oops"⟩ (fun _ => none) "fb-a.1").2.2.2 h1⟩

/-- C3: with resume mode off or no in-progress candidate selected, an
empty ready list yields no task, and a non-empty ready list yields a
ready task of maximal depth with the smallest id among that depth,
with the resumed flag false. -/
theorem ready_path_picks_deepest_smallest_id (store : Store) (resume : Bool)
    (hres : resume_candidate store resume = none) :
    (store.ready = [] →
      get_next_prioritized_task store resume = (none, false)) ∧
    (store.ready ≠ [] →
      ∃ t, get_next_prioritized_task store resume = (some t, false) ∧
        t ∈ store.ready ∧
        ∀ u ∈ store.ready,
          get_hierarchy_depth u ≤ get_hierarchy_depth t ∧
          (get_hierarchy_depth u = get_hierarchy_depth t →
            strLE t.id u.id = true)) := by
  constructor
  · intro h
    unfold get_next_prioritized_task
    rw [hres]
    simp [h, sortTasks]
  · intro h
    obtain ⟨t, rest, hsort⟩ : ∃ t rest, sortTasks store.ready = t :: rest := by
      cases hs : sortTasks store.ready with
      | nil => exact absurd hs (sortTasks_ne_nil h)
      | cons t rest => exact ⟨t, rest, rfl⟩
    refine ⟨t, ?_, ?_, ?_⟩
    · unfold get_next_prioritized_task
      rw [hres, hsort]
    · exact mem_sortTasks.mp (hsort ▸ List.mem_cons_self t rest)
    · intro u hu
      have hu' : u ∈ t :: rest := hsort ▸ mem_sortTasks.mpr hu
      have hkey : keyLE t u = true := by
        rcases List.mem_cons.mp hu' with rfl | hmem
        · exact keyLE_refl u
        · have hp := sortTasks_sorted store.ready
          rw [hsort] at hp
          exact (List.pairwise_cons.mp hp).1 u hmem
      unfold keyLE at hkey
      simp only [Bool.or_eq_true, Bool.and_eq_true, decide_eq_true_eq] at hkey
      rcases hkey with hlt | ⟨heq, hs⟩
      · exact ⟨Nat.le_of_lt hlt, fun hEq => absurd hEq (by omega)⟩
      · exact ⟨Nat.le_of_eq heq.symm, fun _ => hs⟩

unseal List.merge List.mergeSort in
/-- C3 witness: on a ready pool with depths 0, 2, 1, 2 the scheduler
returns the depth-2 candidate with the smaller id, fb-a.1.1. -/
theorem ready_path_witness :
    get_next_prioritized_task w3store false = (some (mkTask "fb-a.1.1"), false) ∧
    (w3store.ready ≠ [] →
      ∃ t, get_next_prioritized_task w3store false = (some t, false) ∧
        t ∈ w3store.ready ∧
        ∀ u ∈ w3store.ready,
          get_hierarchy_depth u ≤ get_hierarchy_depth t ∧
          (get_hierarchy_depth u = get_hierarchy_depth t →
            strLE t.id u.id = true)) :=
  ⟨by decide,
   (ready_path_picks_deepest_smallest_id w3store false rfl).2⟩

/-- Restatement of the resume walk as a first-match search over the
sorted in-progress list. -/
theorem resume_candidate_eq_find (store : Store) :
    resume_candidate store true =
      (sortTasks store.inProgress).find?
        (fun t => is_leaf_task t || all_children_complete store.children t.id) := by
  unfold resume_candidate
  by_cases h : store.inProgress.isEmpty
  · have heq : store.inProgress = [] := by
      cases hf : store.inProgress with
      | nil => rfl
      | cons x xs => rw [hf] at h; simp [List.isEmpty] at h
    simp [h, heq, sortTasks]
  · simp [h, pickInProgress_eq_find]

/-- C4: in resume mode the scheduler walks the in-progress candidates
in sorted order (deepest first, id tie-break): the selected candidate
is the first that is a leaf or passes the children-complete gate, and
is returned with the resumed flag true; when no in-progress candidate
qualifies, the result is exactly the non-resume (ready-list) result. -/
theorem resume_walk_first_leaf_or_gated (store : Store) :
    List.Pairwise (fun a b => keyLE a b = true) (sortTasks store.inProgress) ∧
    get_next_prioritized_task store true =
      (match (sortTasks store.inProgress).find?
          (fun t => is_leaf_task t || all_children_complete store.children t.id)
        with
        | some t => (some t, true)
        | none => get_next_prioritized_task store false) := by
  refine ⟨sortTasks_sorted _, ?_⟩
  unfold get_next_prioritized_task
  rw [resume_candidate_eq_find]
  cases hf : (sortTasks store.inProgress).find?
      (fun t => is_leaf_task t || all_children_complete store.children t.id) with
  | none => simp [resume_candidate]
  | some t => simp

/-- C7: on an agent timeout the runner reports not-success with no
session reference and the timed-out flag, and the post-run update
issues exactly one appended note (recording the timeout) — no status
mutation at all, so the task stays in_progress. -/
theorem timeout_leaves_task_in_progress (store : Store)
    (timeoutSeconds : Nat) (taskId : String) (autoComplete : Bool) :
    run_agent false taskId ProcOutcome.timedOut =
      ((false, none, true), [Effect.launch taskId]) ∧
    update_after_run store timeoutSeconds taskId false autoComplete false
        none true =
      [Effect.note taskId (timeoutNote timeoutSeconds)] ∧
    ∀ st note sess,
      Effect.setStatus taskId st note sess ∉
        update_after_run store timeoutSeconds taskId false autoComplete false
          none true := by
  refine ⟨rfl, ?_, ?_⟩
  · simp [update_after_run]
  · intro st note sess
    simp [update_after_run]

/-- C7 witness: the timeout update at a concrete store and task. -/
theorem timeout_witness :
    update_after_run okStore 1800 "fb-a.1.1" false true false none true =
      [Effect.note "fb-a.1.1" (timeoutNote 1800)] :=
  (timeout_leaves_task_in_progress okStore 1800 "fb-a.1.1" true).2.1

/-- C8: a non-timeout agent failure makes the post-run update issue
exactly one mutation, setting the task blocked with the failure reason
as note; and whenever any task was selected the loop continues to the
next iteration instead of aborting. -/
theorem agent_failure_blocks_and_continues (store : Store)
    (timeoutSeconds : Nat) (taskId : String) (autoComplete : Bool) :
    update_after_run store timeoutSeconds taskId false autoComplete false
        none false =
      [Effect.setStatus taskId "blocked"
        (some "Agent failed: Agent execution failed") none] ∧
    ∀ (cfg : Config) (st : Store) (proc : ProcOutcome) (t : BeadTask)
      (r : Bool),
      get_next_prioritized_task st cfg.resume = (some t, r) →
      (orchestrate_step cfg st proc).2 = true := by
  constructor
  · simp [update_after_run, failEffect]
  · intro cfg st proc t r h
    unfold orchestrate_step
    rw [h]
    by_cases h1 : is_leaf_task ((st.details t.id).getD t)
    · by_cases h2 : !cfg.dryRun && !r && !st.claimOk ((st.details t.id).getD t).id <;>
        simp [h1, h2]
    · simp [h1]

unseal List.merge List.mergeSort in
/-- C8 witness: a failing leaf run on a concrete store is recorded as
blocked, and the loop continues after that iteration. -/
theorem agent_failure_witness :
    update_after_run okStore 1800 "fb-a.1.1" false true false none false =
      [Effect.setStatus "fb-a.1.1" "blocked"
        (some "Agent failed: Agent execution failed") none] ∧
    (orchestrate_step liveCfg wLeafStore ProcOutcome.excepted).2 = true :=
  ⟨(agent_failure_blocks_and_continues okStore 1800 "fb-a.1.1" true).1,
   (agent_failure_blocks_and_continues okStore 1800 "fb-a.1.1" true).2
     liveCfg wLeafStore ProcOutcome.excepted (mkTask "fb-a.1.1") false
     (by decide)⟩

/-- C9: when the completing mutation fails, both the non-leaf
auto-close branch and the successful-leaf branch issue the close
attempt exactly once and then set the task blocked with a diagnostic
reason, instead of retrying the close. -/
theorem close_failure_marks_blocked (store : Store) (timeoutSeconds : Nat)
    (taskId : String) (session : Option String)
    (hfail : store.completeOk taskId = false) :
    (store.claimOk taskId = true →
      close_nonleaf store false true false taskId =
        [Effect.claim taskId, Effect.setStatus taskId "closed" none none,
         Effect.setStatus taskId "blocked"
           (some "Agent failed: Failed to mark task as done") none]) ∧
    close_nonleaf store false true true taskId =
      [Effect.setStatus taskId "closed" none none,
       Effect.setStatus taskId "blocked"
         (some "Agent failed: Failed to mark task as done") none] ∧
    update_after_run store timeoutSeconds taskId false true true session
        false =
      [Effect.setStatus taskId "closed" none session,
       Effect.setStatus taskId "blocked"
         (some "Agent failed: Failed to mark task as done after successful agent run")
         none] := by
    refine ⟨?_, ?_, ?_⟩
    · intro hclaim
      simp [close_nonleaf, hfail, hclaim, completeEffect, failEffect]
    · simp [close_nonleaf, hfail, completeEffect, failEffect]
    · simp [update_after_run, hfail, completeEffect, failEffect]

/-- C9 witness: the two branches at a store whose completing mutation
always fails. -/
theorem close_failure_witness :
    close_nonleaf failCloseStore false true true "fb-a.1" =
      [Effect.setStatus "fb-a.1" "closed" none none,
       Effect.setStatus "fb-a.1" "blocked"
         (some "Agent failed: Failed to mark task as done") none] ∧
    update_after_run failCloseStore 1800 "fb-a.1.1" false true true none
        false =
      [Effect.setStatus "fb-a.1.1" "closed" none none,
       Effect.setStatus "fb-a.1.1" "blocked"
         (some "Agent failed: Failed to mark task as done after successful agent run")
         none] :=
  ⟨(close_failure_marks_blocked failCloseStore 1800 "fb-a.1" none rfl).2.1,
   (close_failure_marks_blocked failCloseStore 1800 "fb-a.1.1" none rfl).2.2⟩

/-- In dry-run mode one loop iteration issues no effect at all. -/
theorem dryrun_step_no_effects (cfg : Config) (store : Store)
    (proc : ProcOutcome) (hdry : cfg.dryRun = true) :
    (orchestrate_step cfg store proc).1 = [] := by
  unfold orchestrate_step
  cases hn : get_next_prioritized_task store cfg.resume with
  | mk t r =>
    cases t with
    | none => rfl
    | some task0 =>
      by_cases h1 : is_leaf_task ((store.details task0.id).getD task0)
      · simp [h1, hdry, run_agent, update_after_run]
      · simp [h1, hdry, close_nonleaf]

/-- C10: with dry_run on, a whole run of the orchestration loop issues
no store mutation and no agent launch (its effect trace is empty), and
the runner reports success with no session and no timeout without
being invoked. -/
theorem dry_run_makes_no_mutations (cfg : Config) (hdry : cfg.dryRun = true) :
    (∀ (env : Nat → Store) (procs : Nat → ProcOutcome) (fuel iteration : Nat),
      orchestrate_loop cfg env procs fuel iteration = []) ∧
    ∀ (taskId : String) (proc : ProcOutcome),
      run_agent true taskId proc = ((true, none, false), []) := by
  constructor
  · intro env procs fuel
    induction fuel with
    | zero => intro iteration; rfl
    | succ n ih =>
      intro iteration
      unfold orchestrate_loop
      have hstep := dryrun_step_no_effects cfg (env iteration)
        (procs iteration) hdry
      cases hm : cfg.maxIterations with
      | none => simp [hm, hstep, ih]
      | some m =>
        by_cases hi : m ≤ iteration <;> simp [hm, hi, hstep, ih]
  · intro taskId proc
    rfl

unseal List.merge List.mergeSort in
/-- C10 witness: a dry run over a store that does hold tasks leaves an
empty effect trace. -/
theorem dry_run_witness :
    orchestrate_loop dryCfg (fun _ => w3store) (fun _ => ProcOutcome.excepted)
        3 0 = [] ∧
    run_agent true "fb-a.1.1" ProcOutcome.timedOut = ((true, none, false), []) :=
  ⟨(dry_run_makes_no_mutations dryCfg rfl).1 (fun _ => w3store)
     (fun _ => ProcOutcome.excepted) 3 0,
   (dry_run_makes_no_mutations dryCfg rfl).2 "fb-a.1.1" ProcOutcome.timedOut⟩

unseal List.merge List.mergeSort in
/-- C1: counterexample run showing the ready-task path auto-closing a
non-leaf task whose direct child is not complete.  The store offers
the depth-1 task fb-a.1 on the ready list while its child fb-a.1.1
has status blocked, so the children-complete gate is false at
selection time; the loop nevertheless claims fb-a.1 and issues the
closing mutation, because the ready path of the scheduler never
invokes the gate (only the resume-mode in-progress path does). -/
theorem ready_path_autocloses_ungated_nonleaf :
    is_leaf_task c1parent = false ∧
    all_children_complete c1store.children c1parent.id = false ∧
    get_next_prioritized_task c1store liveCfg.resume = (some c1parent, false) ∧
    orchestrate_step liveCfg c1store ProcOutcome.excepted =
      ([Effect.claim "fb-a.1", Effect.setStatus "fb-a.1" "closed" none none],
        true) := by
  refine ⟨by decide, by decide, by decide, by decide⟩
